import Mathlib

/-!
Verification of the treefmt formatting pipeline (Go sources) against its
natural-language specification.  Shallow embedding: the Go functions cited by
the claims are translated into executable Lean definitions; external
collaborators (the external formatter process, the glob library, the
filesystem) are modelled at their interface boundary by oracle functions.
-/

namespace Treefmt

/-! ## Formatter stage (`format/formatter.go`, `Formatter.Run` / `Formatter.apply`)

The stage consumes its inbox channel until it is closed, accumulating a batch,
flushing a full batch immediately and performing one final flush after the
channel closes.  We model one linearised execution of the `select` loop as a
list of events: either the cancellation context fires (`ctx.Done()`), or a
path is received from the inbox; the end of the list is the channel closing
(`!ok`).  The external program is an oracle `exec` taking the index of the
invocation (so an invocation can fail once and succeed when repeated, as a
real external process may) and the batch of paths; `true` means exit zero. -/

inductive RunEvent where
  | cancel
  | recv (path : String)
deriving DecidableEq, Repr

inductive RunError where
  | cancelled
  | execFailed
deriving DecidableEq, Repr

/-- The mutable state of a `Formatter` during `Run`, together with the
observable trace of what it did: `invocations` records each batch passed to
the external program, `marked` the paths given to `MarkFormatComplete`,
`forwarded` the paths given to `ForwardPath`. -/
structure FmtState where
  batch : List String
  invocationCount : Nat
  invocations : List (List String)
  marked : List String
  forwarded : List String
deriving DecidableEq, Repr

def FmtState.init : FmtState :=
  { batch := [], invocationCount := 0, invocations := [], marked := [], forwarded := [] }

/-- `Formatter.apply` (formatter.go): skip when the batch is empty; otherwise
invoke the external program once with every batched path; on failure return
the error (the batch is NOT reset); on success mark every batched path
complete (no `Before` configured) or forward it (`Before` configured), then
reset the batch. -/
def apply (exec : Nat → List String → Bool) (hasBefore : Bool) (st : FmtState) :
    FmtState × Option RunError :=
  if st.batch = [] then (st, none)
  else
    let ok := exec st.invocationCount st.batch
    let st' := { st with invocationCount := st.invocationCount + 1,
                         invocations := st.invocations ++ [st.batch] }
    if ok then
      if hasBefore then
        ({ st' with forwarded := st'.forwarded ++ st'.batch, batch := [] }, none)
      else
        ({ st' with marked := st'.marked ++ st'.batch, batch := [] }, none)
    else
      (st', some RunError.execFailed)

/-- The `select` loop of `Formatter.Run`.  Mirrors the Go control flow
faithfully, including the shadowing of `err` inside the loop body: when a
full-batch `apply` fails the loop breaks, but the OUTER `err` named return
value is left `nil` (the failure was assigned to a fresh local `err`), so the
loop reports `none`.  A `cancel` event assigns the outer `err` and breaks. -/
def runLoop (exec : Nat → List String → Bool) (hasBefore : Bool) (batchSize : Nat) :
    List RunEvent → FmtState → FmtState × Option RunError
  | [], st => (st, none)
  | RunEvent.cancel :: _, st => (st, some RunError.cancelled)
  | RunEvent.recv path :: rest, st =>
    let st' := { st with batch := st.batch ++ [path] }
    if st'.batch.length = batchSize then
      match apply exec hasBefore st' with
      | (st'', some _) => (st'', none)
      | (st'', none) => runLoop exec hasBefore batchSize rest st''
    else
      runLoop exec hasBefore batchSize rest st'

/-- `Formatter.Run`: run the select loop; if it set the outer `err`, return it
without flushing; otherwise perform the final flush `f.apply(ctx)` and return
its result. -/
def Run (exec : Nat → List String → Bool) (hasBefore : Bool) (batchSize : Nat)
    (events : List RunEvent) : FmtState × Option RunError :=
  match runLoop exec hasBefore batchSize events FmtState.init with
  | (st, some e) => (st, some e)
  | (st, none) => apply exec hasBefore st

/-- An external program that fails on every invocation. -/
def execAlwaysFail : Nat → List String → Bool := fun _ _ => false

/-- An external program that fails on its first invocation (index 0) and
succeeds on every later one. -/
def execFailFirst : Nat → List String → Bool := fun k _ => decide (0 < k)

/-! ## Dependency cycle detection (`cli/format.go`, `Format.Run`)

For each configured formatter the code walks the chain of `Before`
("runs-before") references, accumulating the visited names in `history`; it
stops successfully when a formatter with no `Before` is reached, and reports a
cycle only when the chain comes back to the formatter the walk STARTED from.
The walk itself has no other exit, so we embed the unbounded Go `for` loop
with a fuel parameter: `none` means the loop is still running after `fuel`
iterations. -/

/-- The slice of a formatter's configuration the cycle detector reads:
its `Before` field ("" means no runs-before relation). -/
structure FormatterConfig where
  before : String
deriving DecidableEq, Repr

/-- `cfg.Formatters`: a name-keyed map, embedded as an association list. -/
abbrev Config := List (String × FormatterConfig)

/-- Map lookup `cfg.Formatters[name]`. -/
def lookupFmt (cfg : Config) (n : String) : Option FormatterConfig :=
  (cfg.find? (fun e => e.1 = n)).map (·.2)

inductive DetectResult where
  | ok
  | cycleDetected (history : List String)
  | notFound (name : String)
deriving DecidableEq, Repr

/-- The inner `for` loop of the dependency cycle detection, walking the
`Before` chain that starts at formatter `name`.  One fuel unit per iteration;
`none` means the loop has not exited after `fuel` iterations.  In the
`!ok` branch Go reports `formatterCfg.Before` after `formatterCfg` was already
reassigned to the zero value, so the reported name is the empty string. -/
def detectFrom (cfg : Config) (name : String) :
    Nat → String → FormatterConfig → List String → Option DetectResult
  | 0, _, _, _ => none
  | fuel + 1, childName, fcfg, history =>
    let history' := history ++ [childName]
    if fcfg.before = "" then some DetectResult.ok
    else if fcfg.before = name then some (DetectResult.cycleDetected history')
    else
      match lookupFmt cfg fcfg.before with
      | some child => detectFrom cfg name fuel fcfg.before child history'
      | none => some (DetectResult.notFound "")

/-- The outer `range cfg.Formatters` loop of the cycle detection, iterating
the association list in order (a Go map iterates in unspecified order; the
list order is one admissible order). -/
def detectCyclesLoop (cfg : Config) (fuel : Nat) :
    List (String × FormatterConfig) → Option DetectResult
  | [] => some DetectResult.ok
  | (name, fcfg) :: rest =>
    match detectFrom cfg name fuel name fcfg [] with
    | none => none
    | some DetectResult.ok => detectCyclesLoop cfg fuel rest
    | some r => some r

/-- The whole dependency cycle detection pass over a configuration. -/
def detectCycles (cfg : Config) (fuel : Nat) : Option DetectResult :=
  detectCyclesLoop cfg fuel cfg

/-! ## Completion drainer (`cli/format.go`, the cache-update goroutine)

The goroutine receives completed paths from `completedCh`, accumulates a
batch (capacity 1024), flushes a full batch immediately, performs a final
flush when the channel closes, then applies the `--fail-on-change` policy.
A flush adds `len(batch)` to `changes` when `--no-cache` is set, otherwise
adds the count returned by `cache.Update(batch)`.  One linearised execution
is a list of events: cancellation or a completed path; end of list is the
channel closing. -/

inductive DrainEvent where
  | cancel
  | complete (path : String)
deriving DecidableEq, Repr

inductive DrainError where
  | cancelled
  | failOnChange
deriving DecidableEq, Repr

/-- The persistent cache, restricted to what the drainer reads and writes:
each path's stored content digest (`none` when the path has no entry).
Digests are abstracted as naturals. -/
abbrev Store := String → Option Nat

def storePut (store : Store) (p : String) (d : Nat) : Store :=
  fun q => if q = p then some d else store q

/-- Modelled from the spec: `cache.Update` lives in the cache package, which
is not under src/.  Per §4.4 `recordCompletion(paths)` "for each path, stores
its latest on-disk signature ... returns a count of paths whose content
digest actually differs from what was previously stored".  `disk` gives each
path's current on-disk digest. -/
def cacheUpdate (disk : String → Nat) : List String → Store → Nat × Store
  | [], store => (0, store)
  | p :: rest, store =>
    let changed : Nat := if store p = some (disk p) then 0 else 1
    let r := cacheUpdate disk rest (storePut store p (disk p))
    (changed + r.1, r.2)

/-- `processBatch` from `Format.Run`: in `--no-cache` mode add the whole
batch length to `changes`; otherwise run `cache.Update` and add its count. -/
def processBatch (noCache : Bool) (disk : String → Nat)
    (batch : List String) (changes : Nat) (store : Store) : Nat × Store :=
  if noCache then (changes + batch.length, store)
  else
    let r := cacheUpdate disk batch store
    (changes + r.1, r.2)

/-- The drainer's `select` loop plus the final flush: cancellation returns the
cancellation error immediately (no flush); a completed path joins the batch,
which is flushed when it reaches `batchSize`; channel closure triggers the
final flush and yields the accumulated `changes` count. -/
def drainLoop (noCache : Bool) (disk : String → Nat) (batchSize : Nat) :
    List DrainEvent → List String → Nat → Store → Except DrainError Nat
  | [], batch, changes, store =>
    Except.ok (processBatch noCache disk batch changes store).1
  | DrainEvent.cancel :: _, _, _, _ => Except.error DrainError.cancelled
  | DrainEvent.complete p :: rest, batch, changes, store =>
    let batch' := batch ++ [p]
    if batch'.length = batchSize then
      let r := processBatch noCache disk batch' changes store
      drainLoop noCache disk batchSize rest [] r.1 r.2
    else
      drainLoop noCache disk batchSize rest batch' changes store

/-- The drainer goroutine end to end: run the loop, then apply the
`--fail-on-change` policy — a non-zero final `changes` count on an otherwise
successful run becomes the distinguished `ErrFailOnChange` failure. -/
def drainRun (noCache failOnChange : Bool) (disk : String → Nat) (batchSize : Nat)
    (events : List DrainEvent) (store : Store) : Except DrainError Nat :=
  match drainLoop noCache disk batchSize events [] 0 store with
  | Except.error e => Except.error e
  | Except.ok changes =>
    if failOnChange && changes ≠ 0 then Except.error DrainError.failOnChange
    else Except.ok changes

/-- A store holding path "a" with digest 5, and a disk on which every path
currently has digest 5 — so "a"'s content digest has not changed. -/
def store5 : Store := fun p => if p = "a" then some 5 else none

def disk5 : String → Nat := fun _ => 5

/-- A configuration where formatter A's chain leads into the cycle B -> C -> B
that does not contain A. -/
def cfgTailIntoCycle : Config :=
  [("A", { before := "B" }), ("B", { before := "C" }), ("C", { before := "B" })]

/-! ## Path matching (`format/formatter.go`, `Formatter.Wants`)

A compiled glob from the external glob library is modelled at its interface
as a predicate on paths. -/

abbrev Glob := String → Bool

/-- Modelled from the spec: `PathMatches` lives in the format package but is
not under src/; per §4.2 a path "matches at least one include pattern", so
`PathMatches(path, globs)` holds iff at least one of the compiled globs
matches the path. -/
def PathMatches (path : String) (globs : List Glob) : Bool :=
  globs.any (fun g => g path)

/-- The compiled include/exclude globs of a `Formatter` (`f.includes`,
`f.excludes`). -/
structure FormatterGlobs where
  includes : List Glob
  excludes : List Glob

/-- `Formatter.Wants`:
`match := !PathMatches(path, f.excludes) && PathMatches(path, f.includes)`. -/
def Wants (f : FormatterGlobs) (path : String) : Bool :=
  !PathMatches path f.excludes && PathMatches path f.includes

/-! ## Incremental reruns (change-set narrowing plus completion recording)

The cache package is not under src/; its two operations that decide claim C6
are modelled from the spec (§3 "Cache Entry", §4.4).  A cache entry stores a
path's content signature and the formatter-set signature active when it was
written; signatures are abstracted as naturals.  `disk` gives each path's
current on-disk signature — the tree is untouched between the two runs, and a
completion is recorded AFTER formatting, so the recorded signature is the
post-format one that a second walk re-reads. -/

abbrev CacheStore := String → Option (Nat × Nat)

/-- Modelled from the spec: the changed-path test of `filterChanged` /
`cache.ChangeSet` (§3): a path re-enters the pipeline iff it has no entry,
its on-disk signature differs from the stored one, or the active
formatter-set signature differs from the recorded one. -/
def isChanged (store : CacheStore) (fmtSig : Nat) (disk : String → Nat) (p : String) : Bool :=
  match store p with
  | none => true
  | some (sig, fsig) => !(sig = disk p && fsig = fmtSig)

/-- The change-set narrowing of the walk: only changed paths are sent into
the pipeline's path channel. -/
def changeSet (store : CacheStore) (fmtSig : Nat) (disk : String → Nat)
    (paths : List String) : List String :=
  paths.filter (isChanged store fmtSig disk)

/-- Modelled from the spec: `recordCompletion` (§4.4) "for each path, stores
its latest on-disk signature and the current formatter-set signature". -/
def recordAll (disk : String → Nat) (fmtSig : Nat) : List String → CacheStore → CacheStore
  | [], store => store
  | p :: rest, store =>
    recordAll disk fmtSig rest (fun q => if q = p then some (disk p, fmtSig) else store q)

/-- One complete, successful run of the pipeline over the tree's paths:
the cache narrows the walk to changed paths, the dispatcher hands each to the
formatters (`wants p = true` iff at least one formatter wants `p`, as in the
`Format.Run` fan-out loop), every dispatched path is formatted and completes,
and the drainer records each completed path.  Returns the paths the
formatters were invoked on and the updated cache. -/
def runOnce (wants : String → Bool) (fmtSig : Nat) (disk : String → Nat)
    (paths : List String) (store : CacheStore) : List String × CacheStore :=
  let processed := (changeSet store fmtSig disk paths).filter wants
  (processed, recordAll disk fmtSig processed store)

/-! ## The `--no-cache` walk callback (`cli/format.go`, `Format.Run`) -/

/-- The slice of `fs.FileInfo` the walk callback reads: whether the entry is
a directory and whether its mode has the symlink bit. -/
structure FileInfo where
  isDir : Bool
  isSymlink : Bool
deriving DecidableEq, Repr

/-- The `--no-cache` walk function: each walked entry is sent into `pathsCh`
unless `info.IsDir() || info.Mode()&os.ModeSymlink == os.ModeSymlink`.
The returned list is the sequence of paths delivered to the channel. -/
def noCacheWalk (entries : List (String × FileInfo)) : List String :=
  entries.filterMap (fun e => if !(e.2.isDir || e.2.isSymlink) then some e.1 else none)

/-! ## Git walker (`walk/git.go`, `GitReader.Read`)

The scanner over `git ls-files` output is modelled as the list of remaining
lines; `os.Stat` is an oracle from paths to stat outcomes.  We model the
execution in which the context is not cancelled (the `select` has a `default`
branch, so an uncancelled run never blocks on `ctx.Done()`). -/

/-- Outcome of `os.Stat`: the file does not exist (`os.IsNotExist(err)`),
some other stat failure, or success with file info. -/
inductive StatResult where
  | notExist
  | statError
  | ok (info : FileInfo)
deriving DecidableEq, Repr

/-- `walk.File` as filled in by `GitReader.Read`. -/
structure File where
  path : String
  relPath : String
  info : FileInfo
deriving DecidableEq, Repr

/-- `path/filepath.Join` modelled at its interface for clean relative
segments (no ".." or trailing separators, as `git ls-files` emits). -/
def joinPath (a b : String) : String :=
  if a = "" then b else if b = "" then a else a ++ "/" ++ b

inductive ReadError where
  | eof
  | statFailed (path : String)
deriving DecidableEq, Repr

/-- The `for n < len(files)` loop of `GitReader.Read`: `cap` is
`len(files)`, `n` the fill count, `acc` the files written so far.  A line
whose stat reports non-existence is skipped (`continue`) — not written, not
counted; any other stat failure returns immediately with the error; scanner
exhaustion sets `io.EOF`; a full buffer leaves the loop with a nil error. -/
def gitReadLoop (stat : String → StatResult) (root sub : String) (cap : Nat) :
    List String → Nat → List File → Nat × List File × Option ReadError
  | [], n, acc =>
    if n < cap then (n, acc, some ReadError.eof) else (n, acc, none)
  | line :: rest, n, acc =>
    if n < cap then
      match stat (joinPath (joinPath root sub) line) with
      | StatResult.notExist => gitReadLoop stat root sub cap rest n acc
      | StatResult.statError =>
        (n, acc, some (ReadError.statFailed (joinPath (joinPath root sub) line)))
      | StatResult.ok info =>
        gitReadLoop stat root sub cap rest (n + 1)
          (acc ++ [{ path := joinPath (joinPath root sub) line,
                     relPath := joinPath sub line, info := info }])
    else (n, acc, none)

/-- `GitReader.Read` itself, starting with an empty buffer; the returned `n`
is also what the deferred `g.stats.Add(stats.Traversed, n)` adds to the
traversed statistic. -/
def gitRead (stat : String → StatResult) (root sub : String) (cap : Nat)
    (lines : List String) : Nat × List File × Option ReadError :=
  gitReadLoop stat root sub cap lines 0 []

/-- A stat oracle for the witness: "r/s/b" has been removed from the
filesystem, "r/s/e" fails to stat for another reason, every other path
stats fine as a plain file. -/
def statW : String → StatResult := fun p =>
  if p = "r/s/b" then StatResult.notExist
  else if p = "r/s/e" then StatResult.statError
  else StatResult.ok { isDir := false, isSymlink := false }

theorem detectFrom_tail_stuck (fuel : Nat) :
    (∀ h : List String,
      detectFrom cfgTailIntoCycle "A" fuel "B" { before := "C" } h = none) ∧
    (∀ h : List String,
      detectFrom cfgTailIntoCycle "A" fuel "C" { before := "B" } h = none) := by
  induction fuel with
  | zero => exact ⟨fun _ => rfl, fun _ => rfl⟩
  | succ n ih =>
    constructor
    · intro h
      show detectFrom cfgTailIntoCycle "A" n "C" { before := "B" } (h ++ ["B"]) = none
      exact ih.2 (h ++ ["B"])
    · intro h
      show detectFrom cfgTailIntoCycle "A" n "B" { before := "C" } (h ++ ["C"]) = none
      exact ih.1 (h ++ ["C"])

theorem cacheUpdate_append (disk : String → Nat) (xs : List String) :
    ∀ (ys : List String) (store : Store),
      cacheUpdate disk (xs ++ ys) store
        = ((cacheUpdate disk xs store).1
             + (cacheUpdate disk ys (cacheUpdate disk xs store).2).1,
           (cacheUpdate disk ys (cacheUpdate disk xs store).2).2) := by
  induction xs with
  | nil => intro ys store; simp [cacheUpdate]
  | cons p rest ih =>
    intro ys store
    simp [cacheUpdate, ih, Nat.add_assoc]

theorem drainLoop_cache (disk : String → Nat) (bs : Nat) :
    ∀ (paths batch : List String) (changes : Nat) (store : Store),
      drainLoop false disk bs (paths.map DrainEvent.complete) batch changes store
        = Except.ok (changes + (cacheUpdate disk (batch ++ paths) store).1) := by
  intro paths
  induction paths with
  | nil => intro batch changes store; simp [drainLoop, processBatch]
  | cons p rest ih =>
    intro batch changes store
    have hsplit : batch ++ p :: rest = (batch ++ [p]) ++ rest := by simp
    have happ := cacheUpdate_append disk (batch ++ [p]) rest store
    rw [List.map_cons, drainLoop]
    by_cases hlen : (batch ++ [p]).length = bs
    · rw [if_pos hlen, ih]
      rw [hsplit, happ]
      simp [processBatch, Nat.add_assoc]
    · rw [if_neg hlen, ih, hsplit]

theorem drainLoop_nocache (disk : String → Nat) (bs : Nat) :
    ∀ (paths batch : List String) (changes : Nat) (store : Store),
      drainLoop true disk bs (paths.map DrainEvent.complete) batch changes store
        = Except.ok (changes + batch.length + paths.length) := by
  intro paths
  induction paths with
  | nil => intro batch changes store; simp [drainLoop, processBatch]
  | cons p rest ih =>
    intro batch changes store
    rw [List.map_cons, drainLoop]
    by_cases hlen : (batch ++ [p]).length = bs
    · rw [if_pos hlen, ih]
      simp [processBatch]
      omega
    · rw [if_neg hlen, ih]
      simp
      omega

theorem drainLoop_never_failOnChange (noCache : Bool) (disk : String → Nat) (bs : Nat) :
    ∀ (events : List DrainEvent) (batch : List String) (changes : Nat) (store : Store),
      drainLoop noCache disk bs events batch changes store
        ≠ Except.error DrainError.failOnChange := by
  intro events
  induction events with
  | nil => intro batch changes store; simp [drainLoop]
  | cons e rest ih =>
    intro batch changes store
    cases e with
    | cancel => simp [drainLoop]
    | complete p =>
      rw [drainLoop]
      by_cases hlen : (batch ++ [p]).length = bs
      · rw [if_pos hlen]
        exact ih _ _ _
      · rw [if_neg hlen]
        exact ih _ _ _

theorem recordAll_lookup (disk : String → Nat) (fmtSig : Nat) :
    ∀ (ps : List String) (store : CacheStore) (q : String),
      recordAll disk fmtSig ps store q
        = if q ∈ ps then some (disk q, fmtSig) else store q := by
  intro ps
  induction ps with
  | nil => intro store q; simp [recordAll]
  | cons p rest ih =>
    intro store q
    rw [recordAll, ih]
    by_cases hq : q ∈ rest
    · simp [hq]
    · by_cases hqp : q = p
      · subst hqp
        simp [hq]
      · simp [hq, hqp]

theorem isChanged_recorded (disk : String → Nat) (fmtSig : Nat)
    (ps : List String) (store : CacheStore) (q : String) (hq : q ∈ ps) :
    isChanged (recordAll disk fmtSig ps store) fmtSig disk q = false := by
  rw [isChanged, recordAll_lookup]
  simp [hq]

theorem isChanged_unrecorded (disk : String → Nat) (fmtSig : Nat)
    (ps : List String) (store : CacheStore) (q : String) (hq : q ∉ ps) :
    isChanged (recordAll disk fmtSig ps store) fmtSig disk q
      = isChanged store fmtSig disk q := by
  rw [isChanged, recordAll_lookup, if_neg hq, isChanged]

theorem gitReadLoop_full (stat : String → StatResult) (root sub : String) (cap : Nat)
    (lines : List String) (n : Nat) (acc : List File) (h : ¬ n < cap) :
    gitReadLoop stat root sub cap lines n acc = (n, acc, none) := by
  cases lines with
  | nil => rw [gitReadLoop, if_neg h]
  | cons l rest => rw [gitReadLoop, if_neg h]

theorem gitReadLoop_skips_missing (stat : String → StatResult) (root sub : String)
    (cap : Nat) (l : String)
    (hne : stat (joinPath (joinPath root sub) l) = StatResult.notExist) :
    ∀ (pre post : List String) (n : Nat) (acc : List File),
      gitReadLoop stat root sub cap (pre ++ l :: post) n acc
        = gitReadLoop stat root sub cap (pre ++ post) n acc := by
  intro pre
  induction pre with
  | nil =>
    intro post n acc
    by_cases h : n < cap
    · simp only [List.nil_append]
      rw [gitReadLoop, if_pos h, hne]
    · simp only [List.nil_append]
      rw [gitReadLoop_full stat root sub cap _ n acc h,
          gitReadLoop_full stat root sub cap _ n acc h]
  | cons x pre' ih =>
    intro post n acc
    by_cases h : n < cap
    · simp only [List.cons_append]
      rw [gitReadLoop, gitReadLoop, if_pos h, if_pos h]
      cases stat (joinPath (joinPath root sub) x) with
      | notExist => exact ih post n acc
      | statError => rfl
      | ok info => exact ih post (n + 1) _
    · simp only [List.cons_append]
      rw [gitReadLoop_full stat root sub cap _ n acc h,
          gitReadLoop_full stat root sub cap _ n acc h]

theorem gitReadLoop_aborts_on_stat_error (stat : String → StatResult) (root sub : String)
    (cap : Nat) (l : String) (rest : List String) (n : Nat) (acc : List File)
    (hn : n < cap)
    (hse : stat (joinPath (joinPath root sub) l) = StatResult.statError) :
    gitReadLoop stat root sub cap (l :: rest) n acc
      = (n, acc, some (ReadError.statFailed (joinPath (joinPath root sub) l))) := by
  rw [gitReadLoop, if_pos hn, hse]

end Treefmt

/-- C2: the claim states that for every configuration whose runs-before edges
contain a cycle — explicitly including a chain that leads into a cycle not
containing its starting formatter — graph construction terminates with a
cycle-detection error.  The code violates this: with formatters
A before B, B before C, C before B (iterated with A first), the chain walk
started at A alternates between B and C forever, since it only stops on an
empty `Before` or on returning to A itself.  No amount of fuel makes the
detection pass produce any result. -/
theorem Treefmt.tail_into_cycle_detection_never_terminates :
    ¬ ∃ (fuel : Nat) (r : Treefmt.DetectResult),
        Treefmt.detectCycles Treefmt.cfgTailIntoCycle fuel = some r := by
  rintro ⟨fuel, r, hr⟩
  have hA : Treefmt.detectFrom Treefmt.cfgTailIntoCycle "A" fuel "A"
      { before := "B" } [] = none := by
    cases fuel with
    | zero => rfl
    | succ n =>
      show Treefmt.detectFrom Treefmt.cfgTailIntoCycle "A" n "B" { before := "C" } ["A"] = none
      exact (Treefmt.detectFrom_tail_stuck n).1 ["A"]
  rw [Treefmt.detectCycles, Treefmt.cfgTailIntoCycle, Treefmt.detectCyclesLoop] at hr
  rw [show Treefmt.cfgTailIntoCycle =
      [("A", { before := "B" }), ("B", { before := "C" }), ("C", { before := "B" })] from rfl]
      at hA
  rw [hA] at hr
  exact Option.noConfusion hr

/-- C1: the claim states a failed batch is never re-invoked within the stage's
run.  The code violates this: with batch size 1, a single received path and an
external program that fails every invocation, the full-batch `apply` inside
the loop fails, the loop breaks with the OUTER `err` still nil (the failure
was assigned to a shadowing local), and the final flush invokes the external
program AGAIN on the very same still-unreset batch — the invocation trace is
`[["a"], ["a"]]`. -/
theorem Treefmt.failed_batch_is_reinvoked_by_final_flush :
    (Treefmt.Run Treefmt.execAlwaysFail false 1 [Treefmt.RunEvent.recv "a"]).1.invocations
      = [["a"], ["a"]] := by decide

/-- C3: the claim states `Run` returns the first error encountered and never
returns nil when an earlier batch invocation failed.  The code violates this:
with batch size 1 and an external program that fails its first invocation and
succeeds on the retry, the mid-loop failure is lost to a shadowing local
`err`, the final flush re-invokes the batch successfully, and `Run` returns
nil even though a batch invocation failed during the run. -/
theorem Treefmt.run_returns_nil_despite_failed_invocation :
    Treefmt.execFailFirst 0 ["a"] = false ∧
    (Treefmt.Run Treefmt.execFailFirst false 1 [Treefmt.RunEvent.recv "a"]).1.invocations
      = [["a"], ["a"]] ∧
    (Treefmt.Run Treefmt.execFailFirst false 1 [Treefmt.RunEvent.recv "a"]).2 = none := by
  decide

/-- C8: when the cancellation signal fires while the stage holds a
partially-filled batch, the select loop returns immediately with the state it
held at that moment — no invocation of the external program on the partial
batch, no completion marks and no forwarding happen at or after the
cancellation — and `Run`, seeing a non-nil error, skips the final flush and
surfaces the cancellation error with that same untouched state. -/
theorem Treefmt.cancellation_discards_partial_batch
    (exec : Nat → List String → Bool) (hasBefore : Bool) (batchSize : Nat)
    (st : Treefmt.FmtState) (rest : List Treefmt.RunEvent)
    (_hbatch : st.batch ≠ []) :
    Treefmt.runLoop exec hasBefore batchSize (Treefmt.RunEvent.cancel :: rest) st
      = (st, some Treefmt.RunError.cancelled) ∧
    ∀ (events : List Treefmt.RunEvent) (st' : Treefmt.FmtState),
      Treefmt.runLoop exec hasBefore batchSize events Treefmt.FmtState.init
        = (st', some Treefmt.RunError.cancelled) →
      Treefmt.Run exec hasBefore batchSize events = (st', some Treefmt.RunError.cancelled) := by
  refine ⟨rfl, ?_⟩
  intro events st' h
  simp [Treefmt.Run, h]

/-- Witness for C8 at a concrete partially-filled state: one path "a" is in
the batch when cancellation fires; the loop hands back exactly that state with
a cancellation error. -/
theorem Treefmt.cancellation_discards_partial_batch_witness :
    Treefmt.runLoop Treefmt.execAlwaysFail false 2 [Treefmt.RunEvent.cancel]
        { batch := ["a"], invocationCount := 0, invocations := [], marked := [], forwarded := [] }
      = ({ batch := ["a"], invocationCount := 0, invocations := [], marked := [],
           forwarded := [] }, some Treefmt.RunError.cancelled) ∧
    Treefmt.Run Treefmt.execAlwaysFail false 2
        [Treefmt.RunEvent.recv "a", Treefmt.RunEvent.cancel]
      = ({ batch := ["a"], invocationCount := 0, invocations := [], marked := [],
           forwarded := [] }, some Treefmt.RunError.cancelled) :=
  ⟨(Treefmt.cancellation_discards_partial_batch Treefmt.execAlwaysFail false 2
      { batch := ["a"], invocationCount := 0, invocations := [], marked := [], forwarded := [] }
      [] (by decide)).1,
   (Treefmt.cancellation_discards_partial_batch Treefmt.execAlwaysFail false 2
      { batch := ["a"], invocationCount := 0, invocations := [], marked := [], forwarded := [] }
      [] (by decide)).2
     [Treefmt.RunEvent.recv "a", Treefmt.RunEvent.cancel]
     { batch := ["a"], invocationCount := 0, invocations := [], marked := [], forwarded := [] }
     (by decide)⟩

/-- C4 counterexample: path "a" completes while its stored digest (5) equals
its current on-disk digest (5), so the number of completed paths whose digest
differs from what was previously stored is 0; yet a `--no-cache` run reports a
changed count of 1, because in that mode `processBatch` adds the whole batch
length to `changes` without consulting digests at all. -/
theorem Treefmt.no_cache_changed_count_ignores_digests :
    (Treefmt.cacheUpdate Treefmt.disk5 ["a"] Treefmt.store5).1 = 0 ∧
    Treefmt.drainRun true false Treefmt.disk5 1024
        [Treefmt.DrainEvent.complete "a"] Treefmt.store5 = Except.ok 1 :=
  ⟨rfl, rfl⟩

/-- C4 amended: on a run that completes without cancellation, the final
"changed" count is mode-dependent — with the cache enabled it equals the
count accumulated from `cache.Update`, i.e. the number of completed paths
whose content digest differed from what was previously stored at the moment
the path's entry was written (batching does not affect this count); with
`--no-cache` it is simply the number of completed paths, re-processed or
not. -/
theorem Treefmt.changed_count_by_mode (disk : String → Nat) (bs : Nat)
    (store : Treefmt.Store) (paths : List String) :
    Treefmt.drainRun false false disk bs (paths.map Treefmt.DrainEvent.complete) store
      = Except.ok (Treefmt.cacheUpdate disk paths store).1 ∧
    Treefmt.drainRun true false disk bs (paths.map Treefmt.DrainEvent.complete) store
      = Except.ok paths.length := by
  constructor
  · rw [Treefmt.drainRun, Treefmt.drainLoop_cache]
    simp
  · rw [Treefmt.drainRun, Treefmt.drainLoop_nocache]
    simp

/-- C7: the drainer returns the distinguished `ErrFailOnChange` failure
exactly when the `--fail-on-change` policy is enabled and the loop completed
successfully (no cancellation, no cache failure) with a non-zero final
changed count; with the policy disabled or a zero count that failure is never
produced — in particular the loop itself never produces it. -/
theorem Treefmt.fail_on_change_policy (noCache fo : Bool) (disk : String → Nat)
    (bs : Nat) (events : List Treefmt.DrainEvent) (store : Treefmt.Store) :
    Treefmt.drainRun noCache fo disk bs events store
        = Except.error Treefmt.DrainError.failOnChange
      ↔ (fo = true ∧ ∃ changes : Nat,
           Treefmt.drainLoop noCache disk bs events [] 0 store = Except.ok changes ∧
           changes ≠ 0) := by
  rw [Treefmt.drainRun]
  cases h : Treefmt.drainLoop noCache disk bs events [] 0 store with
  | error e =>
    constructor
    · intro he
      have he' : (Except.error e : Except Treefmt.DrainError Nat)
          = Except.error Treefmt.DrainError.failOnChange := he
      cases he'
      exact absurd h (Treefmt.drainLoop_never_failOnChange noCache disk bs events [] 0 store)
    · rintro ⟨-, changes, hc, -⟩
      exact absurd hc (by simp)
  | ok changes =>
    constructor
    · intro he
      have he' : (if (fo && decide (changes ≠ 0)) = true
            then Except.error Treefmt.DrainError.failOnChange
            else (Except.ok changes : Except Treefmt.DrainError Nat))
          = Except.error Treefmt.DrainError.failOnChange := he
      by_cases hf : (fo && decide (changes ≠ 0)) = true
      · simp only [Bool.and_eq_true, decide_eq_true_eq] at hf
        exact ⟨hf.1, changes, rfl, hf.2⟩
      · rw [if_neg hf] at he'
        exact absurd he' (by simp)
    · rintro ⟨hfo, c, hc, hne⟩
      have hc' : c = changes := (Except.ok.inj hc).symm
      subst hc'
      show (if (fo && decide (c ≠ 0)) = true
          then Except.error Treefmt.DrainError.failOnChange
          else (Except.ok c : Except Treefmt.DrainError Nat))
        = Except.error Treefmt.DrainError.failOnChange
      rw [if_pos (by simp [hfo, hne])]

/-- C5 counterexample: with no include patterns and no exclude patterns
configured, the claim requires `Wants` to hold (the path matches no exclude
pattern and the formatter has no include patterns, which the claim reads as
"match everything"); but `Wants` is
`!PathMatches(path, excludes) && PathMatches(path, includes)`, which on two
empty pattern lists is `!false && false = false` — indeed, it is
`!X && X` for the SAME `PathMatches` value `X` on an empty list, so no
semantics of `PathMatches` could make the claim hold. -/
theorem Treefmt.wants_empty_includes_matches_nothing :
    ¬ ((Treefmt.Wants { includes := [], excludes := [] } "src/main.py" = true) ↔
       (Treefmt.PathMatches "src/main.py"
            (Treefmt.FormatterGlobs.mk [] []).excludes = false ∧
        (Treefmt.PathMatches "src/main.py"
            (Treefmt.FormatterGlobs.mk [] []).includes = true ∨
         (Treefmt.FormatterGlobs.mk ([] : List Treefmt.Glob) []).includes = []))) := by
  simp [Treefmt.Wants, Treefmt.PathMatches]

/-- C5 amended: `Wants path` holds iff the path matches no exclude pattern
AND matches at least one include pattern; a formatter with no include
patterns configured wants nothing (empty includes match nothing, not
everything).  Exclude still always dominates include. -/
theorem Treefmt.wants_characterisation (f : Treefmt.FormatterGlobs) (path : String) :
    (Treefmt.Wants f path = true ↔
      (Treefmt.PathMatches path f.excludes = false ∧
       Treefmt.PathMatches path f.includes = true)) ∧
    Treefmt.Wants { includes := [], excludes := f.excludes } path = false := by
  constructor
  · rw [Treefmt.Wants]
    cases h1 : Treefmt.PathMatches path f.excludes <;>
      cases h2 : Treefmt.PathMatches path f.includes <;> simp
  · rw [Treefmt.Wants]
    simp [Treefmt.PathMatches]

/-- C6: a fully formatted tree is a fixed point of the pipeline.  After one
complete successful run over an untouched tree, an immediately following run
with the same formatter-set signature and the same on-disk signatures invokes
the formatters on zero files: every path the first run processed was recorded
with its current signatures and is filtered out by the change-set test, and
every changed-but-unprocessed path was wanted by no formatter, so it is
dispatched to none. -/
theorem Treefmt.fully_formatted_tree_is_fixed_point (wants : String → Bool)
    (fmtSig : Nat) (disk : String → Nat) (paths : List String)
    (store : Treefmt.CacheStore) :
    (Treefmt.runOnce wants fmtSig disk paths
        (Treefmt.runOnce wants fmtSig disk paths store).2).1 = [] := by
  simp only [Treefmt.runOnce, Treefmt.changeSet, List.filter_filter,
    List.filter_eq_nil_iff]
  intro q hq
  simp only [Bool.and_eq_true, not_and]
  intro hwants hchanged
  by_cases hmem :
      q ∈ List.filter (fun a => wants a && Treefmt.isChanged store fmtSig disk a) paths
  · rw [Treefmt.isChanged_recorded disk fmtSig _ store q hmem] at hchanged
    exact Bool.false_ne_true hchanged
  · rw [Treefmt.isChanged_unrecorded disk fmtSig _ store q hmem] at hchanged
    exact hmem (List.mem_filter.mpr ⟨hq, by simp [hwants, hchanged]⟩)

/-- C9: in the `--no-cache` mode a path is delivered into the pipeline's path
channel iff the walker yielded it with an entry that is neither a directory
nor a symbolic link; consequently every directory and every symlink the
walker yields is skipped and never dispatched to any formatter stage. -/
theorem Treefmt.no_cache_walk_delivers_only_regular_files
    (entries : List (String × Treefmt.FileInfo)) (p : String) :
    p ∈ Treefmt.noCacheWalk entries
      ↔ ∃ i : Treefmt.FileInfo,
          (p, i) ∈ entries ∧ i.isDir = false ∧ i.isSymlink = false := by
  simp only [Treefmt.noCacheWalk, List.mem_filterMap]
  constructor
  · rintro ⟨⟨q, i⟩, hmem, hif⟩
    by_cases h : (i.isDir || i.isSymlink) = true
    · simp [h] at hif
    · simp only [Bool.not_eq_true] at h
      simp only [h, Bool.not_false] at hif
      rw [if_pos trivial] at hif
      cases hif
      simp only [Bool.or_eq_false_iff] at h
      exact ⟨i, hmem, h.1, h.2⟩
  · rintro ⟨i, hmem, hd, hs⟩
    exact ⟨(p, i), hmem, by simp [hd, hs]⟩

/-- C10: a path listed in the `git ls-files` output whose file no longer
exists on the filesystem is skipped without an error: the read of any line
list containing such a line is identical to the read with that line deleted —
it is not placed in the output, not counted in the returned `n` (hence not in
the traversed statistic), and reading continues past it.  A stat failure
other than non-existence, by contrast, aborts the read at that line with a
stat error. -/
theorem Treefmt.git_read_skips_removed_file (stat : String → Treefmt.StatResult)
    (root sub : String) (cap : Nat) (l : String)
    (hne : stat (Treefmt.joinPath (Treefmt.joinPath root sub) l)
            = Treefmt.StatResult.notExist) :
    (∀ pre post : List String,
      Treefmt.gitRead stat root sub cap (pre ++ l :: post)
        = Treefmt.gitRead stat root sub cap (pre ++ post)) ∧
    (∀ (l2 : String) (rest : List String) (n : Nat) (acc : List Treefmt.File),
      n < cap →
      stat (Treefmt.joinPath (Treefmt.joinPath root sub) l2)
          = Treefmt.StatResult.statError →
      Treefmt.gitReadLoop stat root sub cap (l2 :: rest) n acc
        = (n, acc, some (Treefmt.ReadError.statFailed
            (Treefmt.joinPath (Treefmt.joinPath root sub) l2)))) := by
  constructor
  · intro pre post
    exact Treefmt.gitReadLoop_skips_missing stat root sub cap l hne pre post 0 []
  · intro l2 rest n acc hn hse
    exact Treefmt.gitReadLoop_aborts_on_stat_error stat root sub cap l2 rest n acc hn hse

/-- Witness for C10 with the concrete stat oracle `statW`: line "b"
("r/s/b" has been removed) is skipped — reading ["a", "b", "c"] equals
reading ["a", "c"] — while line "e" ("r/s/e" fails to stat for another
reason) aborts the read with a stat error before writing anything. -/
theorem Treefmt.git_read_skips_removed_file_witness :
    Treefmt.gitRead Treefmt.statW "r" "s" 10 ["a", "b", "c"]
      = Treefmt.gitRead Treefmt.statW "r" "s" 10 ["a", "c"] ∧
    Treefmt.gitReadLoop Treefmt.statW "r" "s" 10 ["e", "c"] 0 []
      = (0, [], some (Treefmt.ReadError.statFailed
          (Treefmt.joinPath (Treefmt.joinPath "r" "s") "e"))) :=
  ⟨(Treefmt.git_read_skips_removed_file Treefmt.statW "r" "s" 10 "b" (by decide)).1
      ["a"] ["c"],
   (Treefmt.git_read_skips_removed_file Treefmt.statW "r" "s" 10 "b" (by decide)).2
      "e" ["c"] 0 [] (by decide) (by decide)⟩
